import Mathlib

/-!
Verification development for the natural-language query engine of a
spreadsheet-analysis assistant (`backend/services/langchain_excel.py`).

The embedding models the query pipeline `natural_language_query`:
intent classification (`_parse_natural_language_query`), the reference
extractors (`_extract_columns_from_query`, `_extract_values_from_query`,
`_extract_conditions_from_query`, `_extract_time_filters`,
`_extract_aggregation_type`) and the per-intent executors
(`_execute_aggregation_query`, `_execute_filter_query`,
`_execute_groupby_query`, `_execute_top_n_query`, the comparison/trend
stubs and `_execute_general_query`).

Modelling conventions:
- A pandas DataFrame is a `Table`: a header list (name, dtype) plus a
  list of rows; a cell is a rational number, a text string, or a
  datetime abstracted to its month 1..12 (the code only ever reads
  `dt.quarter` and `dt.month` from datetime cells).  Cells are non-null;
  none of the verified claims involve null handling.
- Python numbers are `PyNum` (int or float); float values are exact
  rationals.  Numeric comparisons are implemented by num/den
  cross-multiplication (`ratLtB` etc.), provably equivalent to the `ℚ`
  order.
- Python exceptions that the code catches and converts to an error dict
  are modelled with `Except`: elementwise comparison of a str (or
  datetime) column against a number with an ordering operator raises
  `TypeError` in pandas, while `==` yields elementwise `False`.
- `re.findall` for the patterns actually used (`OP\s*(\d+(?:\.\d+)?)`
  and `\d+(?:\.\d+)?`) is modelled by a direct left-to-right scanner
  returning the captured number strings of the non-overlapping matches.
-/

set_option maxRecDepth 10000

/-! ## String utilities -/

/-- Lower-cased character list of a string, as Python `str.lower` on the
ASCII strings appearing in queries, keywords and column names. -/
def lowerChars (s : String) : List Char := s.data.map Char.toLower

/-- Python substring containment `needle in hay`. -/
def containsSub (needle : List Char) : List Char → Bool
  | [] => needle.isPrefixOf []
  | c :: t => needle.isPrefixOf (c :: t) || containsSub needle t

/-- Whether the lower-cased query text contains the keyword,
Python `keyword in query_lower`. -/
def containsToken (q : String) (kw : String) : Bool :=
  containsSub kw.data (lowerChars q)

/-- Python `any(keyword in query_lower for keyword in kws)`. -/
def anyKeyword (kws : List String) (q : String) : Bool :=
  kws.any (fun kw => containsToken q kw)

/-! ## Numeric literal scanning (`re.findall`) -/

/-- Value of a list of decimal digit characters. -/
def digitsVal (cs : List Char) : Nat :=
  cs.foldl (fun a c => a * 10 + (c.toNat - 48)) 0

/-- Python numbers: `int` or `float`.  A float is modelled as an exact
rational (the literals the scanner produces are short decimals). -/
inductive PyNum where
  | int (n : Int)
  | float (q : ℚ)
  deriving DecidableEq, Repr

/-- Numeric value of a `PyNum`. -/
def PyNum.toRat : PyNum → ℚ
  | .int n => (n : ℚ)
  | .float q => q

/-- Python `float(match) if '.' in match else int(match)` applied to a
captured number string `\d+(?:\.\d+)?`. -/
def parsePyNum (cs : List Char) : PyNum :=
  let ip := cs.takeWhile Char.isDigit
  match cs.dropWhile Char.isDigit with
  | '.' :: fp => .float ((digitsVal ip : ℚ) + (digitsVal fp : ℚ) / ((10 : ℚ) ^ fp.length))
  | _ => .int (digitsVal ip)

/-- Match the regex fragment `\d+(?:\.\d+)?` at the head of the input:
returns the matched characters and the rest, or `none` if the head is
not a digit.  The optional fraction group is greedy and backtracks when
nothing follows the dot. -/
def matchNumber (cs : List Char) : Option (List Char × List Char) :=
  let ds := cs.takeWhile Char.isDigit
  let rest := cs.dropWhile Char.isDigit
  if ds.isEmpty then none
  else
    match rest with
    | '.' :: rest2 =>
      let fs := rest2.takeWhile Char.isDigit
      if fs.isEmpty then some (ds, rest)
      else some (ds ++ '.' :: fs, rest2.dropWhile Char.isDigit)
    | _ => some (ds, rest)

/-- `re.findall(r'\d+(?:\.\d+)?', s)`: left-to-right non-overlapping
matches; a failed attempt advances one character.  The fuel argument is
an upper bound on the scan length (the input length suffices, since
each emitted match consumes at least one character). -/
def findNums : Nat → List Char → List (List Char)
  | 0, _ => []
  | _, [] => []
  | fuel + 1, c :: cs =>
    match matchNumber (c :: cs) with
    | some (m, rest) => m :: findNums fuel rest
    | none => findNums fuel cs

/-- `re.findall(r'OP\s*(\d+(?:\.\d+)?)', s)` for a literal operator
`op`: at each position the operator must match literally, then optional
whitespace, then a number (the capture).  Scanning resumes after each
match. -/
def findOpNum (op : List Char) : Nat → List Char → List (List Char)
  | 0, _ => []
  | _, [] => []
  | fuel + 1, c :: cs =>
    if op.isPrefixOf (c :: cs) then
      match matchNumber (((c :: cs).drop op.length).dropWhile Char.isWhitespace) with
      | some (m, rest) => m :: findOpNum op fuel rest
      | none => findOpNum op fuel cs
    else findOpNum op fuel cs

/-! ## Data model: typed table -/

/-- Column dtype of the loaded DataFrame: numeric (`np.number`),
datetime (`datetime64`) or text (`object`). -/
inductive Dtype where
  | numeric
  | datetime
  | text
  deriving DecidableEq, Repr

/-- A cell value.  A datetime cell is abstracted to its month (1..12):
the code only ever reads `dt.quarter` and `dt.month`. -/
inductive Cell where
  | num (v : ℚ)
  | dt (month : Nat)
  | str (s : String)
  deriving DecidableEq, Repr

/-- A table row. -/
abbrev Row := List Cell

/-- An in-memory table: ordered named typed columns, row-major. -/
structure Table where
  headers : List (String × Dtype)
  rows : List Row
  deriving DecidableEq, Repr

/-- Column names in declaration order (`df.columns`). -/
def Table.colNames (t : Table) : List String := t.headers.map Prod.fst

/-- Index of a named column, `none` when absent
(`col in df.columns` is `(t.colIdx col).isSome`). -/
def Table.colIdx (t : Table) (c : String) : Option Nat :=
  t.headers.findIdx? (fun h => h.1 == c)

/-- Dtype of a named column. -/
def Table.colDtype (t : Table) (c : String) : Option Dtype :=
  (t.headers.find? (fun h => h.1 == c)).map Prod.snd

/-- First numeric column
(`df.select_dtypes(include=[np.number]).columns[0]`). -/
def firstNumericCol (t : Table) : Option String :=
  (t.headers.find? (fun h => h.2 == Dtype.numeric)).map Prod.fst

/-! ## Kernel-computable rational comparisons

pandas compares float column values exactly; `decide` on the `ℚ` order
is not kernel-reducible (it normalizes through `Nat.gcd`), so the
executable comparisons cross-multiply num/den and are proved equivalent
to the `ℚ` order below. -/

/-- Executable `a < b` on `ℚ`. -/
def ratLtB (a b : ℚ) : Bool := decide (a.num * (b.den : Int) < b.num * (a.den : Int))

/-- Executable `a ≤ b` on `ℚ`. -/
def ratLeB (a b : ℚ) : Bool := decide (a.num * (b.den : Int) ≤ b.num * (a.den : Int))

/-- Executable `a = b` on `ℚ`. -/
def ratEqB (a b : ℚ) : Bool := decide (a.num * (b.den : Int) = b.num * (a.den : Int))

/-! ## Intent classification (`_parse_natural_language_query`) -/

/-- The seven intent tags. -/
inductive Intent where
  | aggregation
  | filter
  | groupby
  | top_n
  | comparison
  | trend
  | general
  deriving DecidableEq, Repr

/-- Keywords of the `aggregation` pattern set. -/
def aggregationKeywords : List String :=
  ["sum", "total", "average", "mean", "count", "max", "min", "highest", "lowest"]

/-- Keywords of the `filter` pattern set. -/
def filterKeywords : List String :=
  ["show", "find", "filter", "where", "above", "below", "greater", "less", "equal"]

/-- Keywords of the `groupby` pattern set. -/
def groupbyKeywords : List String :=
  ["by", "group", "each", "per", "for each", "grouped by"]

/-- Keywords of the `top_n` pattern set. -/
def topNKeywords : List String :=
  ["top", "highest", "best", "leading"]

/-- Query-type determination: the four keyword sets are tried in the
patterns dict insertion order aggregation, filter, groupby, top_n; the
first set with any keyword contained in the lower-cased query wins,
default `general`. -/
def classify (q : String) : Intent :=
  if anyKeyword aggregationKeywords q then .aggregation
  else if anyKeyword filterKeywords q then .filter
  else if anyKeyword groupbyKeywords q then .groupby
  else if anyKeyword topNKeywords q then .top_n
  else .general

/-! ## Reference extraction -/

/-- The fixed synonym table of `_extract_columns_from_query`. -/
def columnSynonyms : List (String × List String) :=
  [("revenue", ["sales", "income", "earnings"]),
   ("profit", ["margin", "gain", "earnings"]),
   ("cost", ["expense", "expenditure"]),
   ("date", ["time", "period", "month", "year"]),
   ("product", ["item", "goods", "merchandise"]),
   ("customer", ["client", "buyer", "user"])]

/-- `_extract_columns_from_query`: direct matches (column name
lower-cased contained in the lower-cased query, in column order), then
for each synonym key with a variant present in the query, every column
whose lower-cased name contains the key, appended if not already
present. -/
def extractColumns (q : String) (t : Table) : List String :=
  let ql := lowerChars q
  let direct := t.colNames.filter (fun c => containsSub (lowerChars c) ql)
  columnSynonyms.foldl
    (fun acc p =>
      if p.2.any (fun v => containsSub v.data ql) then
        t.colNames.foldl
          (fun a c =>
            if containsSub p.1.data (lowerChars c) && !(a.contains c) then a ++ [c] else a)
          acc
      else acc)
    direct

/-- `_extract_values_from_query`: every number literal in the query, in
order, ints without a decimal point and floats with one. -/
def extractValues (q : String) : List PyNum :=
  (findNums q.data.length q.data).map parsePyNum

/-- Comparison operators of `_extract_conditions_from_query`. -/
inductive CmpOp where
  | gt
  | lt
  | ge
  | le
  | eq
  deriving DecidableEq, Repr

/-- An extracted comparison condition. -/
structure Condition where
  operator : CmpOp
  value : PyNum
  deriving DecidableEq, Repr

/-- The comparison pattern list, in the order the source iterates it:
`>`, `<`, `>=`, `<=`, `=`. -/
def comparisonPatterns : List (String × CmpOp) :=
  [(">", .gt), ("<", .lt), (">=", .ge), ("<=", .le), ("=", .eq)]

/-- `_extract_conditions_from_query`: for each pattern in order, every
`re.findall` match of `OP\s*(\d+(?:\.\d+)?)` over the raw query text
appends one condition. -/
def extractConditions (q : String) : List Condition :=
  comparisonPatterns.foldl
    (fun acc p =>
      acc ++ (findOpNum p.1.data q.data.length q.data).map
        (fun m => { operator := p.2, value := parsePyNum m }))
    []

/-- Extracted time filters; the scan overwrites, so the last matching
token (in dict order) wins for each kind. -/
structure TimeFilters where
  quarter : Option Nat
  month : Option Nat
  deriving DecidableEq, Repr

/-- Quarter tokens in dict order. -/
def quarterTokens : List (String × Nat) :=
  [("q1", 1), ("q2", 2), ("q3", 3), ("q4", 4)]

/-- Month-name tokens in dict order. -/
def monthTokens : List (String × Nat) :=
  [("january", 1), ("february", 2), ("march", 3), ("april", 4), ("may", 5), ("june", 6),
   ("july", 7), ("august", 8), ("september", 9), ("october", 10), ("november", 11),
   ("december", 12)]

/-- `_extract_time_filters`. -/
def extractTimeFilters (q : String) : TimeFilters :=
  { quarter := quarterTokens.foldl
      (fun acc p => if containsToken q p.1 then some p.2 else acc) none,
    month := monthTokens.foldl
      (fun acc p => if containsToken q p.1 then some p.2 else acc) none }

/-- The five aggregation kinds. -/
inductive AggType where
  | sum
  | mean
  | count
  | max
  | min
  deriving DecidableEq, Repr

/-- `_extract_aggregation_type`: fixed keyword-set order, default
`sum`. -/
def extractAggregationType (q : String) : AggType :=
  if anyKeyword ["sum", "total", "add"] q then .sum
  else if anyKeyword ["average", "mean", "avg"] q then .mean
  else if anyKeyword ["count", "number"] q then .count
  else if anyKeyword ["max", "highest", "maximum"] q then .max
  else if anyKeyword ["min", "lowest", "minimum"] q then .min
  else .sum

/-- The structured query plan assembled by
`_parse_natural_language_query`. -/
structure ParsedQuery where
  type : Intent
  original_query : String
  columns : List String
  values : List PyNum
  conditions : List Condition
  time_filters : TimeFilters
  aggregation_type : AggType
  deriving DecidableEq, Repr

/-- `_parse_natural_language_query`. -/
def parseQuery (q : String) (t : Table) : ParsedQuery :=
  { type := classify q,
    original_query := q,
    columns := extractColumns q t,
    values := extractValues q,
    conditions := extractConditions q,
    time_filters := extractTimeFilters q,
    aggregation_type := extractAggregationType q }

/-! ## Query execution -/

/-- Numeric value of a cell (meaningful on numeric columns; other cells
default to 0, which no verified path reaches). -/
def cellRat : Cell → ℚ
  | .num v => v
  | _ => 0

/-- Text value of a cell (meaningful on text columns). -/
def cellStr : Cell → String
  | .str s => s
  | _ => ""

/-- Month of a cell (meaningful on datetime columns). -/
def cellMonth : Cell → Nat
  | .dt m => m
  | _ => 0

/-- Elementwise pandas comparison of one cell against a number.
On a numeric cell all five operators compare numerically.  On a str
cell (object dtype) an ordering comparison against a number raises
`TypeError`, while `==` is `False`; a datetime cell behaves the same
against a plain number. -/
def cellCmp (c : Cell) (op : CmpOp) (v : ℚ) : Except String Bool :=
  match c with
  | .num x =>
    match op with
    | .gt => .ok (ratLtB v x)
    | .lt => .ok (ratLtB x v)
    | .ge => .ok (ratLeB v x)
    | .le => .ok (ratLeB x v)
    | .eq => .ok (ratEqB x v)
  | .str _ =>
    match op with
    | .eq => .ok false
    | _ => .error "comparison not supported between instances of str and int"
  | .dt _ =>
    match op with
    | .eq => .ok false
    | _ => .error "comparison not supported between dtype datetime64 and int"

/-- `filtered_df[filtered_df[col] OP value]`: keep the rows whose cell
in column `i` satisfies the condition; the first raising cell aborts
with the exception. -/
def filterRowsByCond (i : Nat) (cond : Condition) : List Row → Except String (List Row)
  | [] => .ok []
  | r :: rs =>
    match cellCmp (r.getD i (Cell.num 0)) cond.operator cond.value.toRat with
    | .error e => .error e
    | .ok b =>
      match filterRowsByCond i cond rs with
      | .error e => .error e
      | .ok rest => .ok (if b then r :: rest else rest)

/-- Inner loop `for col in columns: if col in df.columns: ...` of the
condition application: columns absent from the schema are skipped. -/
def applyCondCols (t : Table) (cond : Condition) : List String → List Row → Except String (List Row)
  | [], rows => .ok rows
  | c :: cs, rows =>
    match t.colIdx c with
    | none => applyCondCols t cond cs rows
    | some i =>
      match filterRowsByCond i cond rows with
      | .error e => .error e
      | .ok rows2 => applyCondCols t cond cs rows2

/-- Outer loop `for condition in conditions`: conditions AND-combine by
re-filtering the already-filtered rows. -/
def applyConds (t : Table) : List Condition → List String → List Row → Except String (List Row)
  | [], _, rows => .ok rows
  | cond :: conds, cols, rows =>
    match applyCondCols t cond cols rows with
    | .error e => .error e
    | .ok rows2 => applyConds t conds cols rows2

/-- `_apply_time_filters`: no-op without filters or without a datetime
column; otherwise quarter then month filters against the first datetime
column (`dt.quarter` of month m is `(m+2)/3`). -/
def applyTimeFilters (t : Table) (tf : TimeFilters) (rows : List Row) : List Row :=
  if tf.quarter = none ∧ tf.month = none then rows
  else
    match t.headers.findIdx? (fun h => h.2 == Dtype.datetime) with
    | none => rows
    | some i =>
      let rows1 :=
        match tf.quarter with
        | none => rows
        | some qu => rows.filter (fun r => (cellMonth (r.getD i (Cell.num 0)) + 2) / 3 == qu)
      match tf.month with
      | none => rows1
      | some m => rows1.filter (fun r => cellMonth (r.getD i (Cell.num 0)) == m)

/-- An aggregated scalar: numeric result, str result (object-dtype sum
and max/min), datetime result, or NaN (empty mean/max/min). -/
inductive AggVal where
  | num (q : ℚ)
  | str (s : String)
  | dt (month : Nat)
  | nan
  deriving DecidableEq, Repr

/-- Largest element of a list of rationals, `none` when empty. -/
def listMaxQ : List ℚ → Option ℚ
  | [] => none
  | x :: xs => some (xs.foldl (fun a b => if ratLeB a b then b else a) x)

/-- Smallest element of a list of rationals, `none` when empty. -/
def listMinQ : List ℚ → Option ℚ
  | [] => none
  | x :: xs => some (xs.foldl (fun a b => if ratLeB b a then b else a) x)

/-- Lexicographically largest string, `none` when empty. -/
def listMaxS : List String → Option String
  | [] => none
  | x :: xs => some (xs.foldl (fun a b => if decide (a < b) then b else a) x)

/-- Lexicographically smallest string, `none` when empty. -/
def listMinS : List String → Option String
  | [] => none
  | x :: xs => some (xs.foldl (fun a b => if decide (b < a) then b else a) x)

/-- `filtered_df[col].AGG()` on one column of cells, by dtype:
numeric columns aggregate numerically (sum of an empty column is 0,
mean/max/min of an empty column are NaN); object (str) columns
concatenate on sum, compare lexicographically on max/min and raise on
mean; datetime columns take max/min of the date and raise on sum/mean
(month-granularity abstraction); count is the number of (non-null)
cells everywhere. -/
def aggColumn (a : AggType) (d : Dtype) (cells : List Cell) : Except String AggVal :=
  match d with
  | .numeric =>
    let xs := cells.map cellRat
    match a with
    | .sum => .ok (.num (xs.foldl (· + ·) 0))
    | .mean =>
      if xs.isEmpty then .ok .nan
      else .ok (.num (xs.foldl (· + ·) 0 / (xs.length : ℚ)))
    | .count => .ok (.num (xs.length : ℚ))
    | .max => .ok ((listMaxQ xs).elim AggVal.nan AggVal.num)
    | .min => .ok ((listMinQ xs).elim AggVal.nan AggVal.num)
  | .text =>
    let ss := cells.map cellStr
    match a with
    | .sum => .ok (.str (ss.foldl (· ++ ·) ""))
    | .mean => .error "unsupported operand type for mean on str column"
    | .count => .ok (.num (ss.length : ℚ))
    | .max => .ok ((listMaxS ss).elim AggVal.nan AggVal.str)
    | .min => .ok ((listMinS ss).elim AggVal.nan AggVal.str)
  | .datetime =>
    let ms := cells.map cellMonth
    match a with
    | .sum => .error "datetime64 type does not support sum operations"
    | .mean => .error "datetime64 type does not support mean operations"
    | .count => .ok (.num (ms.length : ℚ))
    | .max => .ok ((ms.max?).elim AggVal.nan AggVal.dt)
    | .min => .ok ((ms.min?).elim AggVal.nan AggVal.dt)

/-- Cells of column `i` over the given rows. -/
def colCells (i : Nat) (rows : List Row) : List Cell :=
  rows.map (fun r => r.getD i (Cell.num 0))

/-- Results loop of `_execute_aggregation_query`:
`for col in columns: if col in filtered_df.columns: results[col] = ...`,
building the (insertion-ordered) results dict. -/
def aggResults (t : Table) (a : AggType) : List String → List Row → Except String (List (String × AggVal))
  | [], _ => .ok []
  | c :: cs, rows =>
    match t.colIdx c with
    | none => aggResults t a cs rows
    | some i =>
      match t.colDtype c with
      | none => aggResults t a cs rows
      | some d =>
        match aggColumn a d (colCells i rows) with
        | .error e => .error e
        | .ok v =>
          match aggResults t a cs rows with
          | .error e => .error e
          | .ok rest => .ok ((c, v) :: rest)

/-- The structured result returned to the caller (the
presentation-only `formatted_results`/`summary` strings are omitted;
every decision-relevant field is kept). -/
inductive QueryResult where
  | error (msg : String)
  | aggregation (operation : AggType) (columns : List String)
      (results : List (String × AggVal)) (filtered_rows total_rows : Nat)
  | filter (filtered_rows total_rows : Nat) (data : List Row) (columns : List String)
      (rows_returned : Nat) (percentage : ℚ)
  | groupby (grouping_columns aggregation_columns : List String)
      (data : List (List String × List (ℚ × Option ℚ × Nat))) (total_groups : Nat)
  | top_n (n : Nat) (sort_column : String) (data : List Row)
  | comparison (message : String)
  | trend (message : String)
  | general (message : String) (data_preview : List Row) (total_rows total_columns : Nat)
      (columns : List String)
  deriving DecidableEq, Repr

/-- Body of `_execute_aggregation_query` after the column fallback:
time filters, then conditions (each against every referenced column
present in the schema), then the per-column aggregation. -/
def execAggregationCore (t : Table) (pq : ParsedQuery) (columns : List String) : QueryResult :=
  let rows1 := applyTimeFilters t pq.time_filters t.rows
  match applyConds t pq.conditions columns rows1 with
  | .error e => .error ("Error in aggregation: " ++ e)
  | .ok frows =>
    match aggResults t pq.aggregation_type columns frows with
    | .error e => .error ("Error in aggregation: " ++ e)
    | .ok res =>
      .aggregation pq.aggregation_type columns res frows.length t.rows.length

/-- `_execute_aggregation_query`: empty referenced columns fall back to
the first numeric column, else an error result. -/
def execAggregation (t : Table) (pq : ParsedQuery) : QueryResult :=
  if pq.columns.isEmpty then
    match firstNumericCol t with
    | some c => execAggregationCore t pq [c]
    | none => .error "No numeric columns found for aggregation"
  else execAggregationCore t pq pq.columns

/-- `_execute_filter_query`: apply all conditions sequentially, return
the first 20 matching rows with counts and percentage (an empty table
raises ZeroDivisionError, converted to an error result). -/
def execFilter (t : Table) (pq : ParsedQuery) : QueryResult :=
  match applyConds t pq.conditions pq.columns t.rows with
  | .error e => .error ("Error in filtering: " ++ e)
  | .ok frows =>
    if t.rows.length = 0 then .error "Error in filtering: division by zero"
    else
      .filter frows.length t.rows.length (frows.take 20) t.colNames frows.length
        ((frows.length : ℚ) / (t.rows.length : ℚ) * 100)

/-- Group key of a row: the (string) cells at the grouping column
indices. -/
def groupKeyOf (idxs : List Nat) (r : Row) : List String :=
  idxs.map (fun i => cellStr (r.getD i (Cell.num 0)))

/-- Lexicographic strict order on group keys (pandas sorts group keys
ascending). -/
def keyLt : List String → List String → Bool
  | [], [] => false
  | [], _ :: _ => true
  | _ :: _, [] => false
  | a :: as, b :: bs => if a = b then keyLt as bs else decide (a < b)

/-- Insert a key into an ascending-sorted key list. -/
def insertKey (k : List String) : List (List String) → List (List String)
  | [] => [k]
  | x :: xs => if keyLt k x then k :: x :: xs else x :: insertKey k xs

/-- Ascending insertion sort of group keys. -/
def sortKeys : List (List String) → List (List String)
  | [] => []
  | k :: ks => insertKey k (sortKeys ks)

/-- Deduplicate keys, keeping first occurrences. -/
def dedupKeys (l : List (List String)) : List (List String) :=
  l.foldl (fun acc k => if acc.contains k then acc else acc ++ [k]) []

/-- The `['sum','mean','count']` aggregate triple of one numeric column
over one group. -/
def aggTriple (xs : List ℚ) : ℚ × Option ℚ × Nat :=
  (xs.foldl (· + ·) 0,
   if xs.isEmpty then none else some (xs.foldl (· + ·) 0 / (xs.length : ℚ)),
   xs.length)

/-- `_execute_groupby_query`: referenced columns present in the schema
are split into object-dtype grouping columns and the rest as
aggregation targets (fallback: first numeric column); groups are the
distinct key tuples in ascending key order, each aggregated with
sum/mean/count; the first 20 grouped rows are returned. -/
def execGroupby (t : Table) (pq : ParsedQuery) : QueryResult :=
  let present := pq.columns.filter (fun c => (t.colIdx c).isSome)
  let grouping := present.filter (fun c => t.colDtype c == some Dtype.text)
  let aggRef := present.filter (fun c => !(t.colDtype c == some Dtype.text))
  if grouping.isEmpty then .error "No grouping columns found"
  else
    let aggcols :=
      if aggRef.isEmpty then
        match firstNumericCol t with
        | some c => [c]
        | none => []
      else aggRef
    if aggcols.isEmpty then .error "No numeric columns found for aggregation"
    else
      let gidx := grouping.filterMap t.colIdx
      let aidx := aggcols.filterMap t.colIdx
      let keys := sortKeys (dedupKeys (t.rows.map (groupKeyOf gidx)))
      let data := keys.map (fun k =>
        let sub := t.rows.filter (fun r => groupKeyOf gidx r == k)
        (k, aidx.map (fun i => aggTriple (sub.map (fun r => cellRat (r.getD i (Cell.num 0)))))))
      .groupby grouping aggcols (data.take 20) keys.length

/-- N for a top-N query: the first extracted int in 1..100, default
5. -/
def topNValue (vs : List PyNum) : Nat :=
  match vs.find? (fun v =>
    match v with
    | .int k => decide (1 ≤ k ∧ k ≤ 100)
    | .float _ => false) with
  | some (.int k) => k.toNat
  | _ => 5

/-- Numeric sort key of a row: the value of column `i`. -/
def rowKey (i : Nat) (r : Row) : ℚ := cellRat (r.getD i (Cell.num 0))

/-- Stable descending insertion by the numeric value of column `i`: a
row is placed before the first row whose key is ≤ its own, so earlier
rows precede later rows among ties. -/
def insertRowDesc (i : Nat) (r : Row) : List Row → List Row
  | [] => [r]
  | x :: xs =>
    if ratLeB (rowKey i x) (rowKey i r) then r :: x :: xs
    else x :: insertRowDesc i r xs

/-- Stable descending sort of rows by the numeric value of column
`i`. -/
def sortRowsDesc (i : Nat) : List Row → List Row
  | [] => []
  | r :: rs => insertRowDesc i r (sortRowsDesc i rs)

/-- `df.nlargest(n, col)` with the default `keep='first'`: the first
`n` rows of the stable descending sort by the column. -/
def nlargest (n i : Nat) (rows : List Row) : List Row :=
  (sortRowsDesc i rows).take n

/-- `_execute_top_n_query`: N from the extracted values, sort column =
first referenced column present and numeric, else first numeric column,
else an error result; result data is `nlargest`. -/
def execTopN (t : Table) (pq : ParsedQuery) : QueryResult :=
  let n := topNValue pq.values
  let sortCol :=
    match pq.columns.find? (fun c => t.colDtype c == some Dtype.numeric) with
    | some c => some c
    | none => firstNumericCol t
  match sortCol with
  | none => .error "No numeric columns found for sorting"
  | some c =>
    match t.colIdx c with
    | none => .error "No numeric columns found for sorting"
    | some i => .top_n n c (nlargest n i t.rows)

/-- `_execute_comparison_query`: stub. -/
def execComparison (_t : Table) (_pq : ParsedQuery) : QueryResult :=
  .comparison "Comparison queries not yet implemented"

/-- `_execute_trend_query`: stub. -/
def execTrend (_t : Table) (_pq : ParsedQuery) : QueryResult :=
  .trend "Trend analysis not yet implemented"

/-- `_execute_general_query`: first 10 rows as preview plus counts. -/
def execGeneral (t : Table) (pq : ParsedQuery) : QueryResult :=
  .general ("Processed query: " ++ pq.original_query) (t.rows.take 10)
    t.rows.length t.headers.length t.colNames

/-- Intent dispatch of `natural_language_query`. -/
def dispatchQuery (t : Table) (pq : ParsedQuery) : QueryResult :=
  match pq.type with
  | .aggregation => execAggregation t pq
  | .filter => execFilter t pq
  | .groupby => execGroupby t pq
  | .top_n => execTopN t pq
  | .comparison => execComparison t pq
  | .trend => execTrend t pq
  | .general => execGeneral t pq

/-- The in-process sheet store `self.sheets`: an insertion-ordered map
from sheet name to its table. -/
abbrev Store := List (String × Table)

/-- `natural_language_query`, state-passing: the store is threaded
explicitly so that absence of mutation is a provable statement; the
source never assigns to `self.sheets` on any query path.  No loaded
sheet or a named sheet that is absent yields an error result; otherwise
the query is parsed against the chosen sheet (named, or the first one)
and dispatched on its intent. -/
def natural_language_query (st : Store) (q : String) (sheet : Option String) : QueryResult × Store :=
  match st with
  | [] => (.error "No Excel file loaded", st)
  | (_, t0) :: _ =>
    match sheet with
    | some s =>
      match st.lookup s with
      | none => (.error ("Sheet \"" ++ s ++ "\" not found"), st)
      | some t => (dispatchQuery t (parseQuery q t), st)
    | none => (dispatchQuery t0 (parseQuery q t0), st)

/-! ## The scenario table of the specification -/

/-- The table [Region:Text, Revenue:Float] with rows
("East",100), ("West",200), ("East",300). -/
def sampleTable : Table :=
  { headers := [("Region", Dtype.text), ("Revenue", Dtype.numeric)],
    rows := [[Cell.str "East", Cell.num 100],
             [Cell.str "West", Cell.num 200],
             [Cell.str "East", Cell.num 300]] }

/-- A store holding the scenario table as its only sheet. -/
def sampleStore : Store := [("Sheet1", sampleTable)]

/-- A query plan whose only referenced column is absent from the
scenario table's schema, with one ordering condition (used to witness
the absent-column no-op behaviour). -/
def absentColPlan : ParsedQuery :=
  { type := Intent.filter,
    original_query := "quantity > 150",
    columns := ["Quantity"],
    values := [PyNum.int 150],
    conditions := [{ operator := CmpOp.gt, value := PyNum.int 150 }],
    time_filters := { quarter := none, month := none },
    aggregation_type := AggType.sum }

/-! ## Helper lemmas -/

theorem ratLtB_iff (a b : ℚ) : ratLtB a b = true ↔ a < b := by
  rw [ratLtB, decide_eq_true_iff]
  exact Rat.lt_def.symm

theorem ratLeB_iff (a b : ℚ) : ratLeB a b = true ↔ a ≤ b := by
  rw [ratLeB, decide_eq_true_iff]
  exact Rat.le_def.symm

theorem ratEqB_iff (a b : ℚ) : ratEqB a b = true ↔ a = b := by
  rw [ratEqB, decide_eq_true_iff]
  constructor
  · intro h
    exact le_antisymm (Rat.le_def.mpr h.le) (Rat.le_def.mpr h.ge)
  · intro h
    subst h
    rfl

theorem isPrefixOf_trans :
    ∀ (a b c : List Char), a.isPrefixOf b = true → b.isPrefixOf c = true →
      a.isPrefixOf c = true
  | [], _, c, _, _ => by cases c <;> rfl
  | _ :: _, [], _, h, _ => by simp [List.isPrefixOf] at h
  | _ :: _, _ :: _, [], _, h => by simp [List.isPrefixOf] at h
  | a :: as, b :: bs, c :: cs, h1, h2 => by
    simp only [List.isPrefixOf, Bool.and_eq_true, beq_iff_eq] at h1 h2 ⊢
    exact ⟨h1.1.trans h2.1, isPrefixOf_trans as bs cs h1.2 h2.2⟩

theorem containsSub_mono (n1 n2 : List Char) (hp : n1.isPrefixOf n2 = true) :
    ∀ hay : List Char, containsSub n2 hay = true → containsSub n1 hay = true := by
  intro hay
  induction hay with
  | nil =>
    intro h
    simp only [containsSub] at h ⊢
    exact isPrefixOf_trans n1 n2 [] hp h
  | cons c t ih =>
    intro h
    simp only [containsSub, Bool.or_eq_true] at h ⊢
    rcases h with h | h
    · exact Or.inl (isPrefixOf_trans n1 n2 (c :: t) hp h)
    · exact Or.inr (ih h)

theorem mem_foldl_of_mem {β : Type} (g : List String → β → List String)
    (hg : ∀ a b x, x ∈ a → x ∈ g a b) :
    ∀ (l : List β) (a : List String) (x : String), x ∈ a → x ∈ l.foldl g a := by
  intro l
  induction l with
  | nil => intro a x h; exact h
  | cons b bs ih => intro a x h; exact ih (g a b) x (hg a b x h)

theorem insertRowDesc_perm (i : Nat) (r : Row) (l : List Row) :
    List.Perm (insertRowDesc i r l) (r :: l) := by
  induction l with
  | nil => simp [insertRowDesc]
  | cons x xs ih =>
    simp only [insertRowDesc]
    split
    · exact List.Perm.refl _
    · exact (List.Perm.cons x ih).trans (List.Perm.swap r x xs)

theorem sortRowsDesc_perm (i : Nat) (l : List Row) :
    List.Perm (sortRowsDesc i l) l := by
  induction l with
  | nil => exact List.Perm.refl _
  | cons r rs ih =>
    exact (insertRowDesc_perm i r (sortRowsDesc i rs)).trans (List.Perm.cons r ih)

theorem pairwise_insertRowDesc (i : Nat) (r : Row) (l : List Row)
    (h : l.Pairwise (fun a b => rowKey i b ≤ rowKey i a)) :
    (insertRowDesc i r l).Pairwise (fun a b => rowKey i b ≤ rowKey i a) := by
  induction l with
  | nil => simp [insertRowDesc]
  | cons x xs ih =>
    rw [List.pairwise_cons] at h
    simp only [insertRowDesc]
    by_cases hc : ratLeB (rowKey i x) (rowKey i r) = true
    · rw [if_pos hc]
      have hxr : rowKey i x ≤ rowKey i r := (ratLeB_iff _ _).mp hc
      refine List.pairwise_cons.mpr ⟨?_, List.pairwise_cons.mpr ⟨h.1, h.2⟩⟩
      intro a ha
      rcases List.mem_cons.mp ha with rfl | ha
      · exact hxr
      · exact le_trans (h.1 a ha) hxr
    · rw [if_neg hc]
      have hrx : rowKey i r ≤ rowKey i x := by
        have hnot := mt (ratLeB_iff (rowKey i x) (rowKey i r)).mpr hc
        exact le_of_not_le hnot
      refine List.pairwise_cons.mpr ⟨?_, ih h.2⟩
      intro a ha
      rcases List.mem_cons.mp ((insertRowDesc_perm i r xs).mem_iff.mp ha) with rfl | ha
      · exact hrx
      · exact h.1 a ha

theorem sortRowsDesc_pairwise (i : Nat) (l : List Row) :
    (sortRowsDesc i l).Pairwise (fun a b => rowKey i b ≤ rowKey i a) := by
  induction l with
  | nil => exact List.Pairwise.nil
  | cons r rs ih => exact pairwise_insertRowDesc i r (sortRowsDesc i rs) ih

theorem filter_insertRowDesc (i : Nat) (q : ℚ) (r : Row) (l : List Row) :
    (insertRowDesc i r l).filter (fun x => ratEqB (rowKey i x) q) =
      if ratEqB (rowKey i r) q = true then
        r :: l.filter (fun x => ratEqB (rowKey i x) q)
      else l.filter (fun x => ratEqB (rowKey i x) q) := by
  induction l with
  | nil =>
    by_cases hr : ratEqB (rowKey i r) q = true <;>
      simp [insertRowDesc, List.filter_cons, hr]
  | cons x xs ih =>
    simp only [insertRowDesc]
    by_cases hc : ratLeB (rowKey i x) (rowKey i r) = true
    · rw [if_pos hc]
      by_cases hr : ratEqB (rowKey i r) q = true <;>
        simp [List.filter_cons, hr]
    · rw [if_neg hc]
      by_cases hr : ratEqB (rowKey i r) q = true
      · have hlt : rowKey i r < rowKey i x := by
          have hnot := mt (ratLeB_iff (rowKey i x) (rowKey i r)).mpr hc
          exact lt_of_not_le hnot
        have hxq : ratEqB (rowKey i x) q = false := by
          cases hb : ratEqB (rowKey i x) q with
          | false => rfl
          | true =>
            exfalso
            have hx : rowKey i x = q := (ratEqB_iff _ _).mp hb
            have hrq : rowKey i r = q := (ratEqB_iff _ _).mp hr
            rw [hx, ← hrq] at hlt
            exact lt_irrefl _ hlt
        simp [List.filter_cons, hxq, hr, ih]
      · by_cases hx : ratEqB (rowKey i x) q = true <;>
          simp [List.filter_cons, hx, hr, ih]

theorem filter_sortRowsDesc (i : Nat) (q : ℚ) (l : List Row) :
    (sortRowsDesc i l).filter (fun x => ratEqB (rowKey i x) q) =
      l.filter (fun x => ratEqB (rowKey i x) q) := by
  induction l with
  | nil => rfl
  | cons r rs ih =>
    simp only [sortRowsDesc]
    rw [filter_insertRowDesc]
    by_cases hr : ratEqB (rowKey i r) q = true <;>
      simp [List.filter_cons, hr, ih]

theorem applyCondCols_absent (t : Table) (cond : Condition) :
    ∀ (cols : List String) (rows : List Row),
      (∀ c ∈ cols, t.colIdx c = none) → applyCondCols t cond cols rows = .ok rows := by
  intro cols
  induction cols with
  | nil => intro rows _; rfl
  | cons c cs ih =>
    intro rows h
    have hc : t.colIdx c = none := h c (List.mem_cons_self c cs)
    simp only [applyCondCols, hc]
    exact ih rows (fun c2 h2 => h c2 (List.mem_cons_of_mem c h2))

theorem applyConds_absent (t : Table) :
    ∀ (conds : List Condition) (cols : List String) (rows : List Row),
      (∀ c ∈ cols, t.colIdx c = none) → applyConds t conds cols rows = .ok rows := by
  intro conds
  induction conds with
  | nil => intro cols rows _; rfl
  | cons cond conds ih =>
    intro cols rows h
    simp only [applyConds, applyCondCols_absent t cond cols rows h]
    exact ih cols rows h

theorem aggResults_absent (t : Table) (a : AggType) :
    ∀ (cols : List String) (rows : List Row),
      (∀ c ∈ cols, t.colIdx c = none) → aggResults t a cols rows = .ok [] := by
  intro cols
  induction cols with
  | nil => intro rows _; rfl
  | cons c cs ih =>
    intro rows h
    have hc : t.colIdx c = none := h c (List.mem_cons_self c cs)
    simp only [aggResults, hc]
    exact ih rows (fun c2 h2 => h c2 (List.mem_cons_of_mem c h2))

theorem execAggregationCore_absent (t : Table) (pq : ParsedQuery) (cols : List String)
    (habs : ∀ c ∈ cols, t.colIdx c = none) :
    execAggregationCore t pq cols =
      QueryResult.aggregation pq.aggregation_type cols []
        (applyTimeFilters t pq.time_filters t.rows).length t.rows.length := by
  simp only [execAggregationCore,
    applyConds_absent t pq.conditions cols (applyTimeFilters t pq.time_filters t.rows) habs,
    aggResults_absent t pq.aggregation_type cols
      (applyTimeFilters t pq.time_filters t.rows) habs]

/-! ## Claim theorems -/

/-- C1: Intent classification precedence.  For every query whose
lower-cased text contains an aggregation keyword and a top_n keyword,
the classifier returns `aggregation`, not `top_n`: the four keyword-set
checks are tried in the fixed order aggregation, filter, groupby,
top_n, and the first matching set wins. -/
theorem claim1_aggregation_precedence (q : String)
    (hagg : ∃ kw ∈ aggregationKeywords, containsToken q kw = true)
    (htop : ∃ kw ∈ topNKeywords, containsToken q kw = true) :
    classify q = Intent.aggregation := by
  obtain ⟨kw, hmem, hc⟩ := hagg
  obtain ⟨_, _, _⟩ := htop
  have hany : anyKeyword aggregationKeywords q = true :=
    List.any_eq_true.mpr ⟨kw, hmem, hc⟩
  unfold classify
  rw [if_pos hany]

/-- Witness for C1 at the query "sum of top 3", which contains the
aggregation keyword "sum" and the top_n keyword "top". -/
theorem claim1_witness :
    (∃ kw ∈ aggregationKeywords, containsToken "sum of top 3" kw = true) ∧
    (∃ kw ∈ topNKeywords, containsToken "sum of top 3" kw = true) ∧
    classify "sum of top 3" = Intent.aggregation :=
  ⟨⟨"sum", by decide, by decide⟩, ⟨"top", by decide, by decide⟩,
    claim1_aggregation_precedence "sum of top 3"
      ⟨"sum", by decide, by decide⟩ ⟨"top", by decide, by decide⟩⟩

/-- C2 counterexample: a condition applied to a referenced Text column
is NOT silently skipped.  On the scenario table, the query
"show region > 150" is a filter query whose only referenced column is
the Text column Region; applying `> 150` to it raises (pandas
`TypeError` for `str > int`), which the execution converts into an
error result — not a normal result with the rows unchanged. -/
theorem claim2_counterexample :
    (natural_language_query sampleStore "show region > 150" none).1 =
      QueryResult.error
        "Error in filtering: comparison not supported between instances of str and int" := by
  decide

/-- C2 as amended: only a condition referencing a column that is absent
from the schema is silently skipped.  For every table and plan whose
referenced columns are all absent, the filter execution returns a
normal result with the full row set (percentage 100), and the
aggregation execution returns a normal result with an empty results
dict; a condition on a present Text column instead errors (ordering
operators) or filters out every row (equality), see the
counterexample. -/
theorem claim2_absent_column_noop (t : Table) (pq : ParsedQuery)
    (hrows : t.rows ≠ [])
    (hcols : pq.columns ≠ [])
    (habs : ∀ c ∈ pq.columns, t.colIdx c = none) :
    execFilter t pq =
      QueryResult.filter t.rows.length t.rows.length (t.rows.take 20) t.colNames
        t.rows.length 100 ∧
    execAggregation t pq =
      QueryResult.aggregation pq.aggregation_type pq.columns []
        (applyTimeFilters t pq.time_filters t.rows).length t.rows.length := by
  have hlen : t.rows.length ≠ 0 := fun h => hrows (List.length_eq_zero.mp h)
  constructor
  · simp only [execFilter, applyConds_absent t pq.conditions pq.columns t.rows habs]
    rw [if_neg hlen]
    have hcast : (t.rows.length : ℚ) ≠ 0 := Nat.cast_ne_zero.mpr hlen
    have hp : (t.rows.length : ℚ) / (t.rows.length : ℚ) * 100 = 100 := by
      rw [div_self hcast, one_mul]
    rw [hp]
  · have hne : ¬(pq.columns.isEmpty = true) := by
      cases hcp : pq.columns with
      | nil => exact absurd hcp hcols
      | cons a b => simp
    simp only [execAggregation]
    rw [if_neg hne]
    exact execAggregationCore_absent t pq pq.columns habs

/-- Witness for C2 (amended) on the scenario table with a plan whose
only referenced column "Quantity" is absent from the schema. -/
theorem claim2_witness :
    execFilter sampleTable absentColPlan =
      QueryResult.filter 3 3 sampleTable.rows ["Region", "Revenue"] 3 100 ∧
    execAggregation sampleTable absentColPlan =
      QueryResult.aggregation AggType.sum ["Quantity"] [] 3 3 :=
  claim2_absent_column_noop sampleTable absentColPlan (by decide) (by decide) (by decide)

/-- C3: aggregation happy path.  On the scenario table, "total revenue"
classifies as aggregation with kind sum over column Revenue, and the
execution returns results {Revenue: 600} with filtered_rows = 3 and
total_rows = 3. -/
theorem claim3_aggregation_happy :
    classify "total revenue" = Intent.aggregation ∧
    extractAggregationType "total revenue" = AggType.sum ∧
    extractColumns "total revenue" sampleTable = ["Revenue"] ∧
    (natural_language_query sampleStore "total revenue" none).1 =
      QueryResult.aggregation AggType.sum ["Revenue"] [("Revenue", AggVal.num 600)] 3 3 := by
  refine ⟨by decide, by decide, by decide, ?_⟩
  have h : (natural_language_query sampleStore "total revenue" none).1 =
      QueryResult.aggregation AggType.sum ["Revenue"]
        [("Revenue", AggVal.num ((0 : ℚ) + 100 + 200 + 300))] 3 3 := rfl
  rw [h]
  norm_num

/-- C4 counterexample: "revenue > 150" is NOT classified as filter.
None of the filter keywords (show, find, filter, where, above, below,
greater, less, equal) occurs in the text — the bare comparison symbol
is not a keyword — so the query falls through to `general`. -/
theorem claim4_counterexample :
    classify "revenue > 150" = Intent.general := by decide

/-- C4 as amended: with an explicit filter keyword, the scenario holds:
"show revenue > 150" classifies as filter and the execution returns
exactly the 2 rows with Revenue 200 and 300 (of 3 total). -/
theorem claim4_filter_scenario :
    classify "show revenue > 150" = Intent.filter ∧
    (natural_language_query sampleStore "show revenue > 150" none).1 =
      QueryResult.filter 2 3
        [[Cell.str "West", Cell.num 200], [Cell.str "East", Cell.num 300]]
        ["Region", "Revenue"] 2 (200 / 3) := by
  refine ⟨by decide, ?_⟩
  have h : (natural_language_query sampleStore "show revenue > 150" none).1 =
      QueryResult.filter 2 3
        [[Cell.str "West", Cell.num 200], [Cell.str "East", Cell.num 300]]
        ["Region", "Revenue"] 2 (((2 : Nat) : ℚ) / ((3 : Nat) : ℚ) * 100) := rfl
  rw [h]
  norm_num

/-- C5 counterexample: "top 1 region by revenue" is NOT classified as
top_n.  The text contains the groupby keyword "by", and groupby is
checked before top_n, so the query classifies as groupby. -/
theorem claim5_counterexample :
    classify "top 1 region by revenue" = Intent.groupby := by decide

/-- C5 as amended: without the groupby keyword "by", the scenario
holds: "top 1 region revenue" classifies as top_n with N = 1 and the
single returned row is ("East", 300) — not ("West", 200) — by
descending sort on Revenue. -/
theorem claim5_topn_scenario :
    classify "top 1 region revenue" = Intent.top_n ∧
    (natural_language_query sampleStore "top 1 region revenue" none).1 =
      QueryResult.top_n 1 "Revenue" [[Cell.str "East", Cell.num 300]] := by
  decide

/-- C6: the claim's intended outcome fails on the code.  The
comparison patterns are iterated in the literal order >, <, >=, <=, =;
the `>`/`<` patterns cannot partially match ">="/"<=" (the "=" blocks
`\s*\d`), but the `=` pattern DOES match inside ">= 150", so the query
">= 150" yields two conditions — {>=, 150} and a spurious {=, 150} —
not exactly one. -/
theorem claim6_spurious_eq_condition :
    extractConditions ">= 150" =
      [{ operator := CmpOp.ge, value := PyNum.int 150 },
       { operator := CmpOp.eq, value := PyNum.int 150 }] := by
  decide

/-- C7: top-N correctness of `nlargest`, the operation whose output is
the `data` of every `top_n` result of `_execute_top_n_query`.  For
every row list, sort-column index and N: (1) the returned rows together
with the excluded rows (the rest of the stable descending sort) are a
permutation of the original rows; (2) the sort-column value of every
returned row is ≥ that of every excluded row; (3) selection is stable:
for every key value, the returned rows with that value form a prefix of
the original rows with that value, so ties keep original order. -/
theorem claim7_topn_correct (rows : List Row) (i n : Nat) :
    List.Perm (nlargest n i rows ++ (sortRowsDesc i rows).drop n) rows ∧
    (∀ r ∈ nlargest n i rows, ∀ s ∈ (sortRowsDesc i rows).drop n,
      rowKey i s ≤ rowKey i r) ∧
    (∀ q : ℚ, ∃ rest,
      (nlargest n i rows).filter (fun x => ratEqB (rowKey i x) q) ++ rest =
        rows.filter (fun x => ratEqB (rowKey i x) q)) := by
  refine ⟨?_, ?_, ?_⟩
  · rw [nlargest, List.take_append_drop]
    exact sortRowsDesc_perm i rows
  · have hs := sortRowsDesc_pairwise i rows
    rw [← List.take_append_drop n (sortRowsDesc i rows), List.pairwise_append] at hs
    simp only [nlargest]
    exact fun r hr s hsm => hs.2.2 r hr s hsm
  · intro q
    refine ⟨((sortRowsDesc i rows).drop n).filter (fun x => ratEqB (rowKey i x) q), ?_⟩
    rw [nlargest, ← List.filter_append, List.take_append_drop, filter_sortRowsDesc]

/-- Witness for C7 on the scenario table sorted by Revenue (index 1)
with N = 1: the returned row ("East", 300) has key ≥ the excluded row
("West", 200). -/
theorem claim7_witness :
    rowKey 1 [Cell.str "West", Cell.num 200] ≤ rowKey 1 [Cell.str "East", Cell.num 300] :=
  (claim7_topn_correct sampleTable.rows 1 1).2.1
    [Cell.str "East", Cell.num 300] (by decide)
    [Cell.str "West", Cell.num 200] (by decide)

/-- C8: classifier totality and unreachable tags.  `classify` is a
total function (and deterministic, being a function of the query text
alone); for every query it returns one of the five reachable tags
aggregation, filter, groupby, top_n, general — in particular it never
returns `comparison` or `trend`, to which no keyword set maps. -/
theorem claim8_classifier_total (q : String) :
    classify q = Intent.aggregation ∨ classify q = Intent.filter ∨
    classify q = Intent.groupby ∨ classify q = Intent.top_n ∨
    classify q = Intent.general := by
  unfold classify
  split_ifs <;> simp

/-- C9: query execution never mutates the store.  For every store,
query and sheet selection, the store returned by
`natural_language_query` is the input store unchanged (no query path
assigns to the sheet map or rebuilds a table), and consequently running
the same query twice in succession yields the identical result both
times. -/
theorem claim9_no_mutation (st : Store) (q : String) (sheet : Option String) :
    (natural_language_query st q sheet).2 = st ∧
    (natural_language_query (natural_language_query st q sheet).2 q sheet).1 =
      (natural_language_query st q sheet).1 := by
  have h2 : (natural_language_query st q sheet).2 = st := by
    cases st with
    | nil => rfl
    | cons p rest =>
      obtain ⟨nm, tb⟩ := p
      cases sheet with
      | none => rfl
      | some s =>
        cases hL : List.lookup s ((nm, tb) :: rest) with
        | none => simp [natural_language_query, hL]
        | some t2 => simp [natural_language_query, hL]
  exact ⟨h2, by rw [h2]⟩

/-- C10: keyword and column matching is raw substring containment, not
word-boundary matching.  (1) Any query containing "summary" contains
the aggregation keyword "sum" as a substring and so classifies as
aggregation; (2) any query containing the letter pair "by" — even
inside another word — with no aggregation and no filter keyword
classifies as groupby; (3) a table column is selected by the column
extractor whenever its name occurs case-insensitively as a substring of
the query text. -/
theorem claim10_substring_matching :
    (∀ q : String, containsToken q "summary" = true → classify q = Intent.aggregation) ∧
    (∀ q : String, containsToken q "by" = true →
      anyKeyword aggregationKeywords q = false →
      anyKeyword filterKeywords q = false →
      classify q = Intent.groupby) ∧
    (∀ (q : String) (t : Table), ∀ c ∈ t.colNames,
      containsSub (lowerChars c) (lowerChars q) = true → c ∈ extractColumns q t) := by
  refine ⟨?_, ?_, ?_⟩
  · intro q hsummary
    have hsum : containsToken q "sum" = true := by
      rw [containsToken] at hsummary ⊢
      exact containsSub_mono "sum".data "summary".data (by decide) (lowerChars q) hsummary
    have hany : anyKeyword aggregationKeywords q = true :=
      List.any_eq_true.mpr ⟨"sum", by decide, hsum⟩
    unfold classify
    rw [if_pos hany]
  · intro q hby h1 h2
    have h1' : ¬(anyKeyword aggregationKeywords q = true) := by rw [h1]; simp
    have h2' : ¬(anyKeyword filterKeywords q = true) := by rw [h2]; simp
    have hany : anyKeyword groupbyKeywords q = true :=
      List.any_eq_true.mpr ⟨"by", by decide, hby⟩
    unfold classify
    rw [if_neg h1', if_neg h2', if_pos hany]
  · intro q t c hmem hsub
    have hdirect : c ∈ t.colNames.filter (fun c2 => containsSub (lowerChars c2) (lowerChars q)) :=
      List.mem_filter.mpr ⟨hmem, hsub⟩
    simp only [extractColumns]
    refine mem_foldl_of_mem _ ?_ columnSynonyms _ c hdirect
    intro a p x hx
    dsimp only
    split
    · refine mem_foldl_of_mem _ ?_ t.colNames a x hx
      intro a2 c2 x2 hx2
      dsimp only
      split
      · exact List.mem_append_left _ hx2
      · exact hx2
    · exact hx

/-- Witness for C10: "summary" classifies as aggregation via the
embedded "sum"; "sort by x" (no aggregation or filter keyword)
classifies as groupby via the embedded "by"; the column "Region" of the
scenario table is selected for the query "show region". -/
theorem claim10_witness :
    classify "summary" = Intent.aggregation ∧
    classify "sort by x" = Intent.groupby ∧
    "Region" ∈ extractColumns "show region" sampleTable :=
  ⟨claim10_substring_matching.1 "summary" (by decide),
   claim10_substring_matching.2.1 "sort by x" (by decide) (by decide) (by decide),
   claim10_substring_matching.2.2 "show region" sampleTable "Region" (by decide) (by decide)⟩
